import Mathlib

/-!
Verification of the udp-highrate core: a shallow embedding of the counter
structure (`stats.hpp`), the server's admission-controlled receive loop
(`server.cpp`), the degraded fallback path over the in-memory mock socket
(`socket.cpp`), the client's packet builder and paced transmit loop
(`client.cpp`), and the metrics text rendering (`metrics_http.cpp`).

Machine integers (`uint64_t` counters, sizes) are modelled as `Nat`; the
counters never approach `2^64` in any behaviour the claims quantify over,
so wrap-around is immaterial and left implicit.
-/

namespace UdpModel

/-- `udp::ClientKey` (stats.hpp): an (IPv4 address, UDP port) pair in host
order; equality is exact field match. -/
structure ClientKey where
  addr : Nat
  port : Nat
deriving DecidableEq, Repr

/-- `udp::Stats` (stats.hpp): four `uint64_t` hot-path counters plus the
mutex-guarded `clients_` map from `ClientKey` to a hit count, modelled as an
association list (the `unordered_map` keyed by distinct `ClientKey`s). -/
structure Stats where
  sent : Nat
  recv : Nat
  rxBytes : Nat
  txBytes : Nat
  clients : List (ClientKey × Nat)
deriving DecidableEq, Repr

/-- A freshly constructed `udp::Stats`: all counters zero, empty map. -/
def Stats.init : Stats := ⟨0, 0, 0, 0, []⟩

/-- `Stats::inc_sent(n)`: `sent_.fetch_add(n)`. -/
def Stats.incSent (s : Stats) (n : Nat) : Stats := { s with sent := s.sent + n }

/-- `Stats::inc_recv(n)`: `recv_.fetch_add(n)`. -/
def Stats.incRecv (s : Stats) (n : Nat) : Stats := { s with recv := s.recv + n }

/-- `Stats::add_rx_bytes(n)`: `rx_bytes_.fetch_add(n)`. -/
def Stats.addRxBytes (s : Stats) (n : Nat) : Stats := { s with rxBytes := s.rxBytes + n }

/-- `Stats::add_tx_bytes(n)`: `tx_bytes_.fetch_add(n)`. -/
def Stats.addTxBytes (s : Stats) (n : Nat) : Stats := { s with txBytes := s.txBytes + n }

/-- `clients_[key]++` on the association list: increment the hit count if the
key is present, otherwise append it with count 1 (`operator[]` default-inserts
0, then the increment makes it 1). -/
def bumpClient : List (ClientKey × Nat) → ClientKey → List (ClientKey × Nat)
  | [], k => [(k, 1)]
  | (k', c) :: rest, k => if k' = k then (k', c + 1) :: rest else (k', c) :: bumpClient rest k

/-- `Stats::note_client(addr, port)`: `clients_[ClientKey{addr,port}]++`. -/
def Stats.noteClient (s : Stats) (k : ClientKey) : Stats :=
  { s with clients := bumpClient s.clients k }

/-- `Stats::unique_clients()`: the size of the `clients_` map. -/
def Stats.uniqueClients (s : Stats) : Nat := s.clients.length

/-- Lifecycle state shared by `UdpServer` and `UdpClient`: the `running_`
flag and whether the worker `std::thread th_` handle is joinable
(`Idle`/`Stopped`: not joinable; `Running`: joinable). -/
structure EngineState where
  running : Bool
  joinable : Bool
deriving DecidableEq, Repr

/-- A freshly constructed engine (`Idle`). -/
def engineIdle : EngineState := ⟨false, false⟩

/-- `UdpServer::start` / `UdpClient::start`: unconditionally sets
`running_ = true` and move-assigns `th_ = std::thread(run_loop)`.
Move-assignment onto a still-joinable `std::thread` calls `std::terminate`;
that abnormal termination is modelled as `none`. -/
def startE (s : EngineState) : Option EngineState :=
  if s.joinable then none else some ⟨true, true⟩

/-- `UdpServer::stop` / `UdpClient::stop`:
`if (th_.joinable()) { running_ = false; th_.join(); }` — a no-op when the
worker was never started or was already joined. -/
def stopE (s : EngineState) : EngineState :=
  if s.joinable then ⟨false, false⟩ else s

/-- Server-side mutable state touched by the receive loop: the admission set
`admitted_` (an `unordered_set<ClientKey>`, modelled as a duplicate-free list)
and the `stats_` counters. -/
structure ServerState where
  admitted : List ClientKey
  stats : Stats
deriving DecidableEq, Repr

/-- A freshly constructed `UdpServer`: empty admission set, zeroed stats. -/
def serverInit : ServerState := ⟨[], Stats.init⟩

/-- Serving one admitted datagram in the `recvmmsg` path (server.cpp):
`stats_.note_client(key)`, `stats_.inc_recv(1)`, `stats_.add_rx_bytes(msg_len)`. -/
def serveOne (st : ServerState) (key : ClientKey) (len : Nat) : ServerState :=
  { st with stats := ((st.stats.noteClient key).incRecv 1).addRxBytes len }

/-- Per-datagram admission check and accounting in `UdpServer::run_loop`
(server.cpp, `recvmmsg` path).  A datagram is a `(ClientKey, msg_len)` pair.
If the key is in `admitted_` it is served; else if `admitted_.size() <
max_clients` the key is inserted and the datagram served; else the datagram
is dropped (`continue`): no counter is touched and it is not queued for echo.
The returned `Bool` is whether the datagram was served (and hence eligible for
the echo batch). -/
def processDatagram (maxClients : Nat) (st : ServerState) (d : ClientKey × Nat) :
    ServerState × Bool :=
  if d.1 ∈ st.admitted then
    (serveOne st d.1 d.2, true)
  else if st.admitted.length < maxClients then
    (serveOne { st with admitted := d.1 :: st.admitted } d.1 d.2, true)
  else
    (st, false)

/-- Processing one received batch of datagrams (the `for (i=0..r-1)` loop of
the `recvmmsg` path) in arrival order. -/
def processBatch (maxClients : Nat) (st : ServerState) (ds : List (ClientKey × Nat)) :
    ServerState :=
  ds.foldl (fun s d => (processDatagram maxClients s d).1) st

/-- `udp::MockSocket` receive side (socket.cpp): preloaded inbound datagrams
`rx_store_` (byte lists) and `recv_cursor_`, the index of the next
undelivered one. -/
structure MockSock where
  rxStore : List (List Nat)
  cursor : Nat
deriving Repr

/-- `MockSocket::fd()`: the mock exposes no raw descriptor and returns the
`-1` sentinel. -/
def mockFd : Int := -1

/-- server.cpp: `can_use_recvmmsg = (fd >= 0)` selects the
admission-enforcing `recvmmsg` path; otherwise the fallback path runs. -/
def canUseRecvmmsg (fd : Int) : Bool := fd ≥ 0

/-- `UdpServer::run_loop` preallocates `cfg.batch` receive buffers of 2048
bytes each; only their sizes matter to the counters, so a buffer is its
size. -/
def initBufs (batch : Nat) : List Nat := List.replicate batch 2048

/-- `MockSocket::recv_batch(bufs)`: for each pending datagram, while buffers
remain, copies `min(dst.size(), src.size())` bytes into the next buffer
(`std::copy` never resizes `dst`) and advances `recv_cursor_`; returns the
number of datagrams delivered.  Buffer sizes are unchanged. -/
def mockRecvBatch (m : MockSock) (bufs : List Nat) : Nat × MockSock :=
  let r := min bufs.length (m.rxStore.length - m.cursor)
  (r, { m with cursor := m.cursor + r })

/-- One iteration of the fallback branch of `UdpServer::run_loop` (no raw
fd): `r = sock_->recv_batch(bufs)`; for each of the `r` delivered datagrams
`stats_.inc_recv(1)` and `stats_.add_rx_bytes(bufs[i].size())`; echo in this
path is left a no-op; the admission set is never consulted or modified. -/
def fallbackIter (st : ServerState) (m : MockSock) (bufs : List Nat) :
    ServerState × MockSock :=
  let rm := mockRecvBatch m bufs
  ({ st with
      stats := (bufs.take rm.1).foldl (fun s sz => (s.incRecv 1).addRxBytes sz) st.stats },
    rm.2)

/-- `k` successive iterations of the fallback receive loop. -/
def fallbackRun (bufs : List Nat) : Nat → ServerState × MockSock → ServerState × MockSock
  | 0, p => p
  | k + 1, p => fallbackRun bufs k (fallbackIter p.1 p.2 bufs)

/-- `MetricsHttpServer::render` (metrics_http.cpp): the Prometheus-style
plaintext exposition built from the current counters — for each metric a
HELP line, a TYPE line and a `<name> <value>` line, in source order. -/
def render (s : Stats) : String :=
  "# HELP udp_packets_received_total Total UDP packets received\n" ++
  "# TYPE udp_packets_received_total counter\n" ++
  "udp_packets_received_total " ++ toString s.recv ++ "\n" ++
  "# HELP udp_packets_sent_total Total UDP packets sent\n" ++
  "# TYPE udp_packets_sent_total counter\n" ++
  "udp_packets_sent_total " ++ toString s.sent ++ "\n" ++
  "# HELP udp_unique_clients Unique client count\n" ++
  "# TYPE udp_unique_clients gauge\n" ++
  "udp_unique_clients " ++ toString s.uniqueClients ++ "\n" ++
  "# HELP udp_rx_bytes_total Total received bytes\n" ++
  "# TYPE udp_rx_bytes_total counter\n" ++
  "udp_rx_bytes_total " ++ toString s.rxBytes ++ "\n" ++
  "# HELP udp_tx_bytes_total Total sent bytes\n" ++
  "# TYPE udp_tx_bytes_total counter\n" ++
  "udp_tx_bytes_total " ++ toString s.txBytes ++ "\n"

/-- The send accounting of `UdpClient::run_loop` (client.cpp): after
`s = sock_->send_batch(batch)`, when `s > 0` the loop runs `inc_sent(s)` and
adds the summed sizes of the whole submitted batch to `tx_bytes`; a zero or
negative (`ssize_t` error) result leaves the counters alone. -/
def sendAccount (st : Stats) (s : Int) (batchSizes : List Nat) : Stats :=
  if s > 0 then (st.incSent s.toNat).addTxBytes batchSizes.sum else st

/-- The counter-mutating operations of `udp::Stats`: every producer-path
update performed by the server and client loops is one of these. -/
inductive StatOp where
  | opSent (n : Nat)
  | opRecv (n : Nat)
  | opRx (n : Nat)
  | opTx (n : Nat)
  | opNote (k : ClientKey)
deriving Repr

/-- Apply one mutating operation to the counters. -/
def applyOp (s : Stats) : StatOp → Stats
  | .opSent n => s.incSent n
  | .opRecv n => s.incRecv n
  | .opRx n => s.addRxBytes n
  | .opTx n => s.addTxBytes n
  | .opNote k => s.noteClient k

/-- Apply a sequence of mutating operations in order. -/
def applyOps (s : Stats) (ops : List StatOp) : Stats := ops.foldl applyOp s

/-- `sizeof(PacketHeader)` under `#pragma pack(1)` (common.hpp):
8 + 8 + 4 = 20 bytes, no padding. -/
def headerSize : Nat := 20

/-- `udp::kMagic` (common.hpp). -/
def kMagic : Nat := 0xC0DEF00D

/-- Little-endian byte image of the low `w` bytes of `n`: the host (x86-64)
memory layout of an unsigned integer field written through the packed-struct
overlay. -/
def leBytes : Nat → Nat → List Nat
  | 0, _ => []
  | w + 1, n => n % 256 :: leBytes w (n / 256)

/-- One datagram built in `UdpClient::run_loop` (client.cpp): a zero-filled
byte vector of size `max(cfg.payload, sizeof(PacketHeader))` whose first 20
bytes are overwritten with `PacketHeader{seq, send_ts_ns = ts, magic =
kMagic}` in packed host order. -/
def buildPacket (payload seq ts : Nat) : List Nat :=
  leBytes 8 seq ++ (leBytes 8 ts ++ (leBytes 4 kMagic ++
    List.replicate (max payload headerSize - headerSize) 0))

/-- The batch-construction loop of `UdpClient::run_loop`: one packet per
timestamp sample (`now_ns()` per packet, given as the list `tss`), each
stamped with `hdr->seq = ++seq_`, threading the per-client sequence counter
`seq_` whose value entering the loop is `seq`. -/
def buildBatchFrom (payload seq : Nat) : List Nat → List (List Nat)
  | [] => []
  | ts :: rest => buildPacket payload (seq + 1) ts :: buildBatchFrom payload (seq + 1) rest

/-- `interval_ns = 1'000'000'000ull / (cfg_.pps ? cfg_.pps : 1)`
(client.cpp): the nominal nanosecond spacing between datagrams. -/
def intervalNs (pps : Nat) : Nat := 1000000000 / (if pps = 0 then 1 else pps)

/-- State of the pacing loop on the monotonic clock: current time `now`,
pacing deadline `next_ts`, and the sent-packet counter. -/
structure PaceState where
  now : Nat
  nextTs : Nat
  sent : Nat
deriving DecidableEq, Repr

/-- One iteration of `UdpClient::run_loop` under ideal timing (building and
sending take no measurable time, the OS accepts the full batch so
`send_batch` returns `batch > 0`, and `clock_nanosleep` wakes exactly at the
deadline): `inc_sent(batch)`, `next_ts += interval_ns * batch`, then sleep
until `next_ts` only if it lies in the future (`next_ts > now`). -/
def paceStep (pps batch : Nat) (st : PaceState) : PaceState :=
  { now := if st.nextTs + intervalNs pps * batch > st.now
      then st.nextTs + intervalNs pps * batch else st.now,
    nextTs := st.nextTs + intervalNs pps * batch,
    sent := st.sent + batch }

/-- The client loop `while (now < end)` with an explicit unrolling bound
(irrelevant once `now` passes the end date, as the state is then returned
unchanged). -/
def paceLoop (pps batch endNs : Nat) : Nat → PaceState → PaceState
  | 0, st => st
  | fuel + 1, st =>
      if st.now < endNs then paceLoop pps batch endNs fuel (paceStep pps batch st) else st

end UdpModel

namespace UdpModel

theorem processBatch_append (m : Nat) (st : ServerState) (l₁ l₂ : List (ClientKey × Nat)) :
    processBatch m st (l₁ ++ l₂) = processBatch m (processBatch m st l₁) l₂ :=
  List.foldl_append _ _ _ _

theorem processDatagram_admitted_le (m : Nat) (st : ServerState) (d : ClientKey × Nat)
    (h : st.admitted.length ≤ m) : (processDatagram m st d).1.admitted.length ≤ m := by
  unfold processDatagram
  split
  · simpa [serveOne] using h
  · split
    · simp only [serveOne, List.length_cons]
      omega
    · simpa using h

theorem processBatch_admitted_le (m : Nat) (ds : List (ClientKey × Nat)) (st : ServerState)
    (h : st.admitted.length ≤ m) : (processBatch m st ds).admitted.length ≤ m := by
  induction ds generalizing st with
  | nil => simpa [processBatch] using h
  | cons d rest ih =>
      simp only [processBatch, List.foldl_cons]
      exact ih _ (processDatagram_admitted_le m st d h)

/-- C1: starting from a freshly constructed server, after processing any
sequence of datagram arrivals through the admission-enforcing receive path,
the admission set holds at most `max_clients` entries; since every
observation point of a run is `processBatch` applied to the prefix of
arrivals processed so far, `|AdmissionSet| ≤ max_clients` holds at every
observation point. -/
theorem admission_set_bounded (maxClients : Nat) (ds : List (ClientKey × Nat)) :
    (processBatch maxClients serverInit ds).admitted.length ≤ maxClients :=
  processBatch_admitted_le maxClients ds serverInit (by simp [serverInit])

/-- C2: in the admission-enforcing receive path, a datagram from a client not
in the admission set while the set already holds `max_clients` entries is
dropped: the server state (all counters included) is unchanged and the
datagram is not queued for echo.  Consequently, with `max_clients = 2` and
three distinct peers each sending exactly one datagram in any interleaving
(`a`, `b`, `c` range over all distinct keys, so every arrival order is an
instance), the received-packet counter is 2, the unique-client count is 2,
and the third peer's bytes never reach the received-byte counter, which holds
exactly the first two datagrams' lengths. -/
theorem full_set_drop_and_three_peers :
    (∀ (maxClients : Nat) (st : ServerState) (d : ClientKey × Nat),
        d.1 ∉ st.admitted → st.admitted.length = maxClients →
        processDatagram maxClients st d = (st, false)) ∧
    (∀ (a b c : ClientKey) (la lb lc : Nat), a ≠ b → a ≠ c → b ≠ c →
        (processBatch 2 serverInit [(a, la), (b, lb), (c, lc)]).stats.recv = 2 ∧
        (processBatch 2 serverInit [(a, la), (b, lb), (c, lc)]).stats.uniqueClients = 2 ∧
        (processBatch 2 serverInit [(a, la), (b, lb), (c, lc)]).stats.rxBytes = la + lb) := by
  constructor
  · intro m st d hmem hlen
    unfold processDatagram
    rw [if_neg hmem, if_neg (by omega)]
  · intro a b c la lb lc hab hac hbc
    simp [processBatch, processDatagram, serverInit, serveOne, Stats.init,
      Stats.noteClient, Stats.incRecv, Stats.addRxBytes, bumpClient,
      Stats.uniqueClients, hab, hac, hbc, Ne.symm hab, Ne.symm hac, Ne.symm hbc]

/-- Witness for C2: the drop branch at a full one-element set, and the
three-peer scenario at concrete keys and sizes. -/
theorem full_set_drop_and_three_peers_witness :
    processDatagram 1 ⟨[⟨7, 7⟩], Stats.init⟩ (⟨9, 9⟩, 100) = (⟨[⟨7, 7⟩], Stats.init⟩, false) ∧
    ((processBatch 2 serverInit [(⟨1, 1⟩, 10), (⟨2, 2⟩, 20), (⟨3, 3⟩, 30)]).stats.recv = 2 ∧
      (processBatch 2 serverInit [(⟨1, 1⟩, 10), (⟨2, 2⟩, 20), (⟨3, 3⟩, 30)]).stats.uniqueClients = 2 ∧
      (processBatch 2 serverInit [(⟨1, 1⟩, 10), (⟨2, 2⟩, 20), (⟨3, 3⟩, 30)]).stats.rxBytes = 10 + 20) :=
  ⟨full_set_drop_and_three_peers.1 1 ⟨[⟨7, 7⟩], Stats.init⟩ (⟨9, 9⟩, 100)
      (by decide) (by decide),
    full_set_drop_and_three_peers.2 ⟨1, 1⟩ ⟨2, 2⟩ ⟨3, 3⟩ 10 20 30
      (by decide) (by decide) (by decide)⟩

/-- C3 (failing evaluation of the code's model): `stop()` is idempotent as
claimed — from `Idle` it is a no-op and a repeated `stop()` after a run
changes nothing — but `start()` is not: a first `start()` from `Idle` leaves
the engine `Running`, and a second `start()` move-assigns `th_` while it is
still joinable, which calls `std::terminate` (modelled as `none`) rather than
being a no-op. -/
theorem start_not_idempotent :
    stopE engineIdle = engineIdle ∧
    (startE engineIdle).map (fun s => stopE (stopE s)) = (startE engineIdle).map stopE ∧
    startE engineIdle = some ⟨true, true⟩ ∧
    (startE engineIdle).bind startE = none := by
  decide

theorem rxFold_spec (s : Stats) (l : List Nat) :
    l.foldl (fun s sz => (s.incRecv 1).addRxBytes sz) s =
      { s with recv := s.recv + l.length, rxBytes := s.rxBytes + l.sum } := by
  induction l generalizing s with
  | nil => simp
  | cons x xs ih =>
      rw [List.foldl_cons, ih]
      simp only [Stats.incRecv, Stats.addRxBytes, List.length_cons, List.sum_cons,
        Stats.mk.injEq]
      refine ⟨trivial, by omega, by omega, trivial, trivial⟩

theorem fallbackIter_spec (st : ServerState) (m : MockSock) (batch : Nat) :
    fallbackIter st m (initBufs batch) =
      ({ st with stats :=
          { st.stats with
              recv := st.stats.recv + min batch (m.rxStore.length - m.cursor),
              rxBytes := st.stats.rxBytes + 2048 * min batch (m.rxStore.length - m.cursor) } },
        { m with cursor := m.cursor + min batch (m.rxStore.length - m.cursor) }) := by
  have hr : min batch (m.rxStore.length - m.cursor) ≤ batch := Nat.min_le_left _ _
  simp only [fallbackIter, mockRecvBatch, initBufs, List.take_replicate, rxFold_spec,
    List.length_replicate, List.sum_replicate, List.length_replicate, smul_eq_mul,
    Nat.min_eq_left hr, Nat.mul_comm]

/-- C4: the mock's `-1` descriptor sends the server down the fallback path,
where admission control is bypassed entirely: every datagram delivered by
`recv_batch` is served and counted in the received-packet counter (the full
delivered count, with no reference to any `max_clients` or to the admission
set, which is left untouched), and echo is a no-op that never fails the
loop (the sent-side counters never move and the iteration is total). -/
theorem fallback_bypasses_admission (st : ServerState) (m : MockSock) (batch : Nat) :
    canUseRecvmmsg mockFd = false ∧
    (fallbackIter st m (initBufs batch)).1.admitted = st.admitted ∧
    (fallbackIter st m (initBufs batch)).1.stats.recv
      = st.stats.recv + min batch (m.rxStore.length - m.cursor) ∧
    (fallbackIter st m (initBufs batch)).1.stats.sent = st.stats.sent ∧
    (fallbackIter st m (initBufs batch)).1.stats.txBytes = st.stats.txBytes := by
  refine ⟨by decide, ?_, ?_, ?_, ?_⟩ <;> rw [fallbackIter_spec]

theorem fallbackRun_cursor_le (bufs : List Nat) (k : Nat) (p : ServerState × MockSock) :
    p.2.cursor ≤ (fallbackRun bufs k p).2.cursor := by
  induction k generalizing p with
  | zero => exact Nat.le_refl _
  | succ k ih =>
      refine Nat.le_trans ?_ (ih (fallbackIter p.1 p.2 bufs))
      simp only [fallbackIter, mockRecvBatch]
      omega

/-- C10: in the fallback path the received-byte counter advances by the full
2048-byte capacity of each pre-sized receive buffer, not by the datagram's
actual length: over any number of loop iterations it grows by exactly
`2048 * n`, where `n` is the number of datagrams served (the advance of the
mock's delivery cursor), regardless of the real sizes of the preloaded
datagrams in `rx_store_`. -/
theorem fallback_rx_bytes_counts_capacity (st : ServerState) (m : MockSock) (batch k : Nat) :
    (fallbackRun (initBufs batch) k (st, m)).1.stats.rxBytes
      = st.stats.rxBytes +
        2048 * ((fallbackRun (initBufs batch) k (st, m)).2.cursor - m.cursor) := by
  induction k generalizing st m with
  | zero => simp [fallbackRun]
  | succ k ih =>
      have hstep : fallbackRun (initBufs batch) (k + 1) (st, m)
          = fallbackRun (initBufs batch) k (fallbackIter st m (initBufs batch)) := rfl
      rw [hstep, fallbackIter_spec]
      rw [ih]
      have hc := fallbackRun_cursor_le (initBufs batch) k
        ({ st with stats :=
            { st.stats with
                recv := st.stats.recv + min batch (m.rxStore.length - m.cursor),
                rxBytes := st.stats.rxBytes + 2048 * min batch (m.rxStore.length - m.cursor) } },
          { m with cursor := m.cursor + min batch (m.rxStore.length - m.cursor) })
      simp only at hc ⊢
      omega

set_option maxRecDepth 20000 in
/-- C5: rendering the metrics exposition at counter state received=10,
sent=4, unique=2, rx_bytes=640, tx_bytes=256 yields exactly the five value
lines `udp_packets_received_total 10`, `udp_packets_sent_total 4`,
`udp_unique_clients 2`, `udp_rx_bytes_total 640`, `udp_tx_bytes_total 256`,
each preceded by its help and type line, in that family order. -/
theorem render_at_sample :
    render ⟨4, 10, 640, 256, [(⟨1, 1⟩, 1), (⟨2, 2⟩, 1)]⟩ =
      "# HELP udp_packets_received_total Total UDP packets received\n" ++
      "# TYPE udp_packets_received_total counter\n" ++
      "udp_packets_received_total 10\n" ++
      "# HELP udp_packets_sent_total Total UDP packets sent\n" ++
      "# TYPE udp_packets_sent_total counter\n" ++
      "udp_packets_sent_total 4\n" ++
      "# HELP udp_unique_clients Unique client count\n" ++
      "# TYPE udp_unique_clients gauge\n" ++
      "udp_unique_clients 2\n" ++
      "# HELP udp_rx_bytes_total Total received bytes\n" ++
      "# TYPE udp_rx_bytes_total counter\n" ++
      "udp_rx_bytes_total 640\n" ++
      "# HELP udp_tx_bytes_total Total sent bytes\n" ++
      "# TYPE udp_tx_bytes_total counter\n" ++
      "udp_tx_bytes_total 256\n" := by
  rfl

/-- C6: for a batched send whose OS-accepted count `s` is positive, the
sent-packet counter grows by exactly `s` and the transmitted-byte counter by
the sum of the sizes of all datagrams in the submitted batch (not only the
`s` confirmed ones); a send returning 0 or an error leaves both counters —
indeed the whole `Stats` — unchanged. -/
theorem send_accounting (st : Stats) (s : Int) (sizes : List Nat) :
    (0 < s →
      (sendAccount st s sizes).sent = st.sent + s.toNat ∧
      (sendAccount st s sizes).txBytes = st.txBytes + sizes.sum) ∧
    (s ≤ 0 → sendAccount st s sizes = st) := by
  constructor
  · intro h
    simp [sendAccount, h, Stats.incSent, Stats.addTxBytes]
  · intro h
    simp [sendAccount, Int.not_lt.mpr h]

/-- Witness for C6: a send of 3 accepted datagrams out of a two-datagram
batch of 20 and 30 bytes, and an erroring send leaving the state alone. -/
theorem send_accounting_witness :
    ((sendAccount Stats.init 3 [20, 30]).sent = Stats.init.sent + (3 : Int).toNat ∧
      (sendAccount Stats.init 3 [20, 30]).txBytes = Stats.init.txBytes + [20, 30].sum) ∧
    sendAccount Stats.init (-1) [20, 30] = Stats.init :=
  ⟨(send_accounting Stats.init 3 [20, 30]).1 (by decide),
    (send_accounting Stats.init (-1) [20, 30]).2 (by decide)⟩

theorem length_le_bumpClient (l : List (ClientKey × Nat)) (k : ClientKey) :
    l.length ≤ (bumpClient l k).length := by
  induction l with
  | nil => simp [bumpClient]
  | cons p rest ih =>
      obtain ⟨k', c⟩ := p
      simp only [bumpClient]
      split
      · exact Nat.le_refl _
      · simpa using ih

theorem applyOp_mono (s : Stats) (op : StatOp) :
    s.sent ≤ (applyOp s op).sent ∧ s.recv ≤ (applyOp s op).recv ∧
    s.rxBytes ≤ (applyOp s op).rxBytes ∧ s.txBytes ≤ (applyOp s op).txBytes ∧
    s.uniqueClients ≤ (applyOp s op).uniqueClients := by
  cases op <;>
    simp [applyOp, Stats.incSent, Stats.incRecv, Stats.addRxBytes, Stats.addTxBytes,
      Stats.noteClient, Stats.uniqueClients, length_le_bumpClient]

/-- C7: every counter-mutating operation of `Stats` adds a non-negative
amount, so over any sequence of producer-path operations each of the four
counters and the unique-client cardinality is monotonically non-decreasing:
no later read returns a smaller value than an earlier read. -/
theorem counters_monotone (s : Stats) (ops : List StatOp) :
    s.sent ≤ (applyOps s ops).sent ∧ s.recv ≤ (applyOps s ops).recv ∧
    s.rxBytes ≤ (applyOps s ops).rxBytes ∧ s.txBytes ≤ (applyOps s ops).txBytes ∧
    s.uniqueClients ≤ (applyOps s ops).uniqueClients := by
  induction ops generalizing s with
  | nil => simp [applyOps]
  | cons op rest ih =>
      have h1 := applyOp_mono s op
      have h2 := ih (applyOp s op)
      simp only [applyOps, List.foldl_cons] at h2 ⊢
      exact ⟨h1.1.trans h2.1, h1.2.1.trans h2.2.1, h1.2.2.1.trans h2.2.2.1,
        h1.2.2.2.1.trans h2.2.2.2.1, h1.2.2.2.2.trans h2.2.2.2.2⟩

theorem leBytes_length (w n : Nat) : (leBytes w n).length = w := by
  induction w generalizing n with
  | zero => rfl
  | succ w ih => simp [leBytes, ih]

/-- C8: every datagram the client builds has length `max(payload, 20)` —
hence at least the 20-byte header — and begins with the unpadded wire
header: the little-endian 64-bit sequence at offset 0, the 64-bit timestamp
at offset 8, the 32-bit magic constant at offset 16, and the (zero-filled)
payload bytes from offset 20 on; within a batch threaded from per-client
counter value `seq`, the `i`-th datagram carries sequence number
`seq + i + 1`, i.e. the sequence increments by exactly 1 per datagram. -/
theorem packet_layout_and_sequence :
    (∀ payload seq ts : Nat,
      (buildPacket payload seq ts).length = max payload headerSize ∧
      headerSize ≤ (buildPacket payload seq ts).length ∧
      (buildPacket payload seq ts).take 8 = leBytes 8 seq ∧
      ((buildPacket payload seq ts).drop 8).take 8 = leBytes 8 ts ∧
      ((buildPacket payload seq ts).drop 16).take 4 = leBytes 4 kMagic ∧
      (buildPacket payload seq ts).drop headerSize
        = List.replicate (payload - headerSize) 0) ∧
    (∀ (payload seq : Nat) (tss : List Nat) (i : Nat),
      (buildBatchFrom payload seq tss)[i]?
        = (tss[i]?).map (buildPacket payload (seq + i + 1))) := by
  constructor
  · intro payload seq ts
    have l8s := leBytes_length 8 seq
    have l8t := leBytes_length 8 ts
    have l4 := leBytes_length 4 kMagic
    have hlen : (buildPacket payload seq ts).length = max payload headerSize := by
      simp only [buildPacket, List.length_append, List.length_replicate, leBytes_length,
        headerSize]
      omega
    refine ⟨hlen, by rw [hlen]; exact Nat.le_max_right payload headerSize, ?_, ?_, ?_, ?_⟩
    · simp only [buildPacket]
      exact List.take_left' l8s
    · simp only [buildPacket]
      rw [List.drop_left' l8s]
      exact List.take_left' l8t
    · simp only [buildPacket]
      rw [show (16 : Nat) = 8 + 8 from rfl, ← List.drop_drop, List.drop_left' l8s,
        List.drop_left' l8t]
      exact List.take_left' l4
    · simp only [buildPacket, headerSize]
      rw [show (20 : Nat) = 8 + (8 + 4) from rfl, ← List.drop_drop, List.drop_left' l8s,
        ← List.drop_drop, List.drop_left' l8t, List.drop_left' l4]
      congr 1
      omega
  · intro payload seq tss i
    induction tss generalizing seq i with
    | nil => simp [buildBatchFrom]
    | cons ts rest ih =>
        cases i with
        | zero => simp [buildBatchFrom]
        | succ j =>
            have h : seq + (j + 1) + 1 = seq + 1 + j + 1 := by omega
            simp only [buildBatchFrom, List.getElem?_cons_succ, h]
            exact ih (seq + 1) j

/-- C9: the pacing loop spaces transmissions at `1e9 / pps` nanoseconds per
datagram (`interval_ns 1000 = 1000000`), advances its deadline by
`interval * batch` per batch, sleeps exactly when the deadline is in the
future (the clock becomes `max now next_ts`), and — under ideal timing, with
every batch accepted — a run at 1000 pps with batch 10 over one second ends
with the sent-packet counter exactly 1000, within one batch (±10) of the
1000 target. -/
theorem pacing_within_one_batch :
    intervalNs 1000 = 1000000 ∧
    (∀ (pps batch : Nat) (st : PaceState),
      (paceStep pps batch st).nextTs = st.nextTs + intervalNs pps * batch ∧
      (paceStep pps batch st).now = max st.now (st.nextTs + intervalNs pps * batch) ∧
      (paceStep pps batch st).sent = st.sent + batch) ∧
    (paceLoop 1000 10 1000000000 200 ⟨0, 0, 0⟩).sent = 1000 ∧
    990 ≤ (paceLoop 1000 10 1000000000 200 ⟨0, 0, 0⟩).sent ∧
    (paceLoop 1000 10 1000000000 200 ⟨0, 0, 0⟩).sent ≤ 1010 := by
  have hrun : (paceLoop 1000 10 1000000000 200 ⟨0, 0, 0⟩).sent = 1000 := by decide
  refine ⟨by decide, ?_, hrun, by omega, by omega⟩
  intro pps batch st
  refine ⟨rfl, ?_, rfl⟩
  simp only [paceStep]
  rcases Nat.lt_or_ge st.now (st.nextTs + intervalNs pps * batch) with h | h
  · rw [if_pos h, Nat.max_eq_right (Nat.le_of_lt h)]
  · rw [if_neg (Nat.not_lt.mpr h), Nat.max_eq_left h]

end UdpModel
